import Mathlib

/-!
Shallow embedding of the trail-run GPX analyzer core
(`project/data_accessors/gpx_analyzer.py`,
`project/application_services/marker_manager.py`,
`project/application_services/gpx_service.py`).

Modelling conventions:
* Python floats are modelled by exact rationals (ℚ); the claims under
  study concern exact control flow and arithmetic identities, not
  floating-point rounding.
* The transcendental haversine distance (`_haversine_distance`, built
  from sin/cos/arcsin) is abstracted as a distance-function parameter
  `d`; the only fact the verified properties need about it is
  non-negativity, which is stated as a hypothesis where used.
* `scipy.signal.savgol_filter` is an external library routine, not
  repository code; it is abstracted as a function parameter `sg`
  (elevations, window length, polynomial order).  All theorems below
  hold for every such `sg`.
* Python exceptions are modelled with `Except String`; raising leaves
  the caller's state untouched, which the pure model reflects by
  construction.
-/

namespace GpxA

/-! ### Settings (`project/settings.py`) -/

/-- `settings.elevation_smoothing_window = 5`. -/
def elevationSmoothingWindow : ℕ := 5

/-- `settings.elevation_threshold_meters = 0.5`. -/
def elevationThresholdMeters : ℚ := 1/2

/-- `settings.distance_resampling_meters = 10.0`. -/
def distanceResamplingMeters : ℚ := 10

/-- `settings.min_distance_for_resampling = 100.0`. -/
def minDistanceForResampling : ℚ := 100

/-! ### Data model (`gpx_analyzer.py`) -/

/-- `TrackPoint` dataclass. -/
structure TrackPoint where
  latitude : ℚ
  longitude : ℚ
  elevation : ℚ
  distance_from_start : ℚ
  index : ℕ
  course : Option ℚ := none
deriving DecidableEq, Repr

/-- A raw GPX track point as handed over by `gpxpy` (latitude and
longitude required, elevation and course optional). -/
structure RawPoint where
  latitude : ℚ
  longitude : ℚ
  elevation : Option ℚ := none
  course : Option ℚ := none
deriving DecidableEq, Repr

/-- A parsed GPX document, reduced to the structure the analyzer walks:
tracks, each a list of segments, each a list of raw points. -/
abbrev GPXDoc := List (List (List RawPoint))

/-- The flattened point sequence the analyzer's triple loop visits,
in file order. -/
def GPXDoc.flatPoints (g : GPXDoc) : List RawPoint := g.flatten.flatten

/-- `GPXStats` dataclass. -/
structure GPXStats where
  total_distance : ℚ
  total_ascent : ℚ
  total_descent : ℚ
  min_elevation : ℚ
  max_elevation : ℚ
  total_points : ℕ
deriving DecidableEq, Repr

/-! ### Track model builder (`GPXAnalyzer.extract_track_points`) -/

/-- The body of the extraction loop: walks the flattened raw points
carrying the previous point, the cumulative distance and the running
index, exactly as the Python loop threads `prev_point`,
`cumulative_distance` and `index` across all tracks and segments.
`d` abstracts `_haversine_distance` on the two points' coordinates.
`point.elevation or 0.0` maps `None` (and `0.0`) to `0.0`, i.e.
`Option.getD 0`. -/
def buildTrackPoints (d : RawPoint → RawPoint → ℚ) :
    Option RawPoint → ℚ → ℕ → List RawPoint → List TrackPoint
  | _, _, _, [] => []
  | prev, cum, idx, p :: rest =>
      let cum' := match prev with
        | none => cum
        | some q => cum + d q p
      { latitude := p.latitude
        longitude := p.longitude
        elevation := p.elevation.getD 0
        distance_from_start := cum'
        index := idx
        course := p.course } :: buildTrackPoints d (some p) cum' (idx + 1) rest

/-- `GPXAnalyzer.extract_track_points`: builds the enriched point list
and raises `ValueError("No track points found in GPX file")` when it
is empty. -/
def extractTrackPoints (d : RawPoint → RawPoint → ℚ) (g : GPXDoc) :
    Except String (List TrackPoint) :=
  let tps := buildTrackPoints d none 0 0 g.flatPoints
  if tps.isEmpty then .error "No track points found in GPX file" else .ok tps

/-! ### Elevation pipeline -/

/-- `np.diff`: consecutive differences. -/
def diffs (l : List ℚ) : List ℚ := List.zipWith (fun a b => b - a) l l.tail

/-- `GPXAnalyzer._calculate_elevation_gain_loss`: threshold-filtered
gain/loss.  Ascent sums the consecutive differences strictly greater
than `threshold`; descent is the absolute value of the sum of the
differences strictly less than `-threshold`. -/
def calculateElevationGainLoss (elevations : List ℚ)
    (threshold : ℚ) : ℚ × ℚ :=
  if elevations.length < 2 then (0, 0)
  else
    let ds := diffs elevations
    (((ds.filter fun x => threshold < x).sum),
      |((ds.filter fun x => x < -threshold).sum)|)

/-- Python `int()` on a rational: truncation toward zero. -/
def pyInt (q : ℚ) : ℤ := if q < 0 then -⌊-q⌋ else ⌊q⌋

/-- `np.linspace start stop num`: `num` evenly spaced samples whose
first element is `start` and (for `num ≥ 2`) last element is `stop`. -/
def linspace (start stop : ℚ) (num : ℤ) : List ℚ :=
  if num ≤ 0 then []
  else if num = 1 then [start]
  else (List.range num.toNat).map
    fun (i : ℕ) => start + (stop - start) * (i : ℚ) / ((num.toNat : ℚ) - 1)

/-- Inner walk of `np.interp`: `xl, fl` is the last grid point at or
below `x`; walks the remaining grid clamping past the right end. -/
def interpGo (x xl fl : ℚ) : List ℚ → List ℚ → ℚ
  | x1 :: xps, f1 :: fps =>
      if x ≤ x1 then fl + (f1 - fl) * (x - xl) / (x1 - xl)
      else interpGo x x1 f1 xps fps
  | _, _ => fl

/-- `np.interp x xp fp`: piecewise-linear interpolation with clamping
outside the grid range. -/
def interp (x : ℚ) : List ℚ → List ℚ → ℚ
  | x0 :: xps, f0 :: fps => if x ≤ x0 then f0 else interpGo x x0 f0 xps fps
  | _, _ => 0

/-- `GPXAnalyzer._resample_by_distance`: with fewer than 2 samples the
input is returned unchanged; otherwise `int(total/interval)+1` evenly
spaced distances are built from 0 to `distances[-1]` and elevations are
linearly interpolated at each. -/
def resampleByDistance (distances elevations : List ℚ) (interval : ℚ) :
    List ℚ × List ℚ :=
  if distances.length < 2 ∨ elevations.length < 2 then (distances, elevations)
  else
    let total := (distances.getLast?).getD 0
    let num : ℤ := pyInt (total / interval) + 1
    let newDistances := linspace 0 total num
    let newElevations := newDistances.map fun x => interp x distances elevations
    (newDistances, newElevations)

/-- `np.percentile` (default linear interpolation method) on the sorted
values. -/
def percentile (l : List ℚ) (p : ℚ) : ℚ :=
  let s := l.mergeSort (· ≤ ·)
  let q : ℚ := ((l.length : ℚ) - 1) * p / 100
  let i : ℕ := (⌊q⌋).toNat
  let frac : ℚ := q - (i : ℚ)
  if i + 1 < s.length then s.getD i 0 + frac * (s.getD (i + 1) 0 - s.getD i 0)
  else s.getD i 0

/-- `GPXAnalyzer._remove_outliers`: skipped entirely below 20 samples;
otherwise IQR fences and replacement of flagged samples by linear
interpolation (by position) over the surviving samples. -/
def removeOutliers (elevations : List ℚ) : List ℚ :=
  if elevations.length < 20 then elevations
  else
    let q1 := percentile elevations 25
    let q3 := percentile elevations 75
    let iqr := q3 - q1
    let lowerBound := q1 - 3/2 * iqr
    let upperBound := q3 + 3/2 * iqr
    let isOut : ℚ → Bool := fun x => decide (x < lowerBound) || decide (upperBound < x)
    if elevations.any isOut then
      let idx := (List.range elevations.length).map (fun i => (i : ℚ))
      let pairs := idx.zip elevations
      let good := pairs.filter fun p => ! isOut p.2
      let goodIdx := good.map Prod.fst
      let goodVals := good.map Prod.snd
      if 0 < goodVals.length then
        pairs.map fun p => if isOut p.2 then interp p.1 goodIdx goodVals else p.2
      else elevations
    else elevations

/-- `GPXAnalyzer._smooth_elevation_advanced` with the Savitzky–Golay
filter abstracted as `sg` (data, window length, polynomial order).
The `try/except` fallback around the filter call is not modelled: `sg`
is a total function. -/
def smoothElevationAdvanced (sg : List ℚ → ℕ → ℕ → List ℚ)
    (elevations : List ℚ) : List ℚ :=
  let wl0 := elevationSmoothingWindow
  if elevations.length < 20 then elevations
  else
    let wl1 :=
      if elevations.length < 50 then 3
      else if elevations.length < wl0 then
        (if elevations.length % 2 = 1 then elevations.length
         else elevations.length - 1)
      else wl0
    if wl1 < 3 then elevations
    else
      let wl2 := if wl1 % 2 = 0 then wl1 - 1 else wl1
      let polyorder := min 2 (wl2 - 1)
      sg elevations wl2 polyorder

/-! ### Track analyzer -/

/-- Minimum of a nonempty elevation list (`np.min`); 0 on the empty
list, which `extract_track_points` guarantees never reaches here. -/
def listMin : List ℚ → ℚ
  | [] => 0
  | x :: xs => xs.foldl min x

/-- Maximum of a nonempty elevation list (`np.max`); 0 on the empty
list. -/
def listMax : List ℚ → ℚ
  | [] => 0
  | x :: xs => xs.foldl max x

/-- `GPXAnalyzer.calculate_stats` on the extracted track points
(memoization elided: the model recomputes the same pure value). -/
def calculateStats (sg : List ℚ → ℕ → ℕ → List ℚ)
    (points : List TrackPoint) : GPXStats :=
  let distances := points.map (·.distance_from_start)
  let elevations := points.map (·.elevation)
  let totalDistance := (distances.getLast?).getD 0
  let resampledElevations :=
    if minDistanceForResampling < totalDistance then
      (resampleByDistance distances elevations distanceResamplingMeters).2
    else elevations
  let cleanedElevations := removeOutliers resampledElevations
  let smoothedElevations := smoothElevationAdvanced sg cleanedElevations
  let ad := calculateElevationGainLoss smoothedElevations elevationThresholdMeters
  { total_distance := ((points.getLast?).map (·.distance_from_start)).getD 0
    total_ascent := ad.1
    total_descent := ad.2
    min_elevation := listMin elevations
    max_elevation := listMax elevations
    total_points := points.length }

/-- The scan of `GPXAnalyzer.find_nearest_point`: `best` starts at
`points[0]` and `bestD` at `None` (the code's `float("inf")`, which
every finite distance beats). -/
def nearestGo (dist : TrackPoint → ℚ) :
    TrackPoint → Option ℚ → List TrackPoint → TrackPoint
  | best, _, [] => best
  | best, bestD, p :: rest =>
      let dp := dist p
      match bestD with
      | none => nearestGo dist p (some dp) rest
      | some m =>
          if dp < m then nearestGo dist p (some dp) rest
          else nearestGo dist best (some m) rest

/-- `GPXAnalyzer.find_nearest_point`, with the per-query haversine
distance abstracted as `dist`.  Returns `none` on an empty track (where
the Python code would fault on `points[0]`; loaded tracks are never
empty). -/
def findNearestPoint (dist : TrackPoint → ℚ)
    (points : List TrackPoint) : Option TrackPoint :=
  match points with
  | [] => none
  | p0 :: _ => some (nearestGo dist p0 none points)

/-- `GPXAnalyzer.get_segment_between_points`.  Note the faithful
asymmetry: the slice bounds are order-normalized
(`if start_idx > end_idx: swap`), but `distance` and the re-based
`distances_segment` are still computed from the original `start_point`
and `end_point` arguments. -/
def getSegmentBetweenPoints (sg : List ℚ → ℕ → ℕ → List ℚ)
    (points : List TrackPoint) (startPoint endPoint : TrackPoint) :
    List TrackPoint × ℚ × ℚ × ℚ :=
  let se :=
    if endPoint.index < startPoint.index then (endPoint.index, startPoint.index)
    else (startPoint.index, endPoint.index)
  let segment := (points.drop se.1).take (se.2 + 1 - se.1)
  let distance := endPoint.distance_from_start - startPoint.distance_from_start
  let elevations := segment.map (·.elevation)
  let distancesSegment :=
    segment.map fun p => p.distance_from_start - startPoint.distance_from_start
  let segmentDistance := |distance|
  let resampledElevations :=
    if minDistanceForResampling < segmentDistance then
      (resampleByDistance distancesSegment elevations distanceResamplingMeters).2
    else elevations
  let cleanedElevations := removeOutliers resampledElevations
  let smoothedElevations := smoothElevationAdvanced sg cleanedElevations
  let ad := calculateElevationGainLoss smoothedElevations elevationThresholdMeters
  (segment, |distance|, ad.1, ad.2)

/-! ### Marker manager (`marker_manager.py`) -/

/-- `Marker` dataclass. -/
structure Marker where
  name : String
  latitude : ℚ
  longitude : ℚ
  track_point : TrackPoint
  index : ℕ
deriving DecidableEq, Repr

/-- `Segment` dataclass. -/
structure Segment where
  start_marker : Marker
  end_marker : Marker
  distance : ℚ
  ascent : ℚ
  descent : ℚ
  track_points : List TrackPoint
  avg_gradient : ℚ
deriving DecidableEq, Repr

/-- A placeholder marker used as the (never-relevant) default of
in-range `List.getD` lookups. -/
def dummyMarker : Marker :=
  { name := "", latitude := 0, longitude := 0
    track_point :=
      { latitude := 0, longitude := 0, elevation := 0
        distance_from_start := 0, index := 0 }
    index := 0 }

/-- `MarkerManager` state: the analyzer it holds is represented by the
analyzer's extracted track points, which is all the manager reads from
it. -/
structure MarkerManager where
  points : List TrackPoint
  markers : List Marker
deriving DecidableEq, Repr

/-- Python `list.insert pos m`: insert before position `pos`, clamping
to the end when `pos` exceeds the length (as Python does). -/
def insertAt : List Marker → ℕ → Marker → List Marker
  | ms, 0, m => m :: ms
  | [], _ + 1, m => [m]
  | a :: rest, pos + 1, m => a :: insertAt rest pos m

/-- The index-renumbering loop
`for i in range(k, len(markers)): markers[i].index = i`, written as a
walk that carries the current absolute position `i`. -/
def renumberFrom (k : ℕ) : ℕ → List Marker → List Marker
  | _, [] => []
  | i, m :: rest =>
      (if k ≤ i then { m with index := i } else m) :: renumberFrom k (i + 1) rest

/-- `MarkerManager.add_marker` (the created marker return value is
dropped; the state transition is what the claims concern).  `dist` is
the per-query haversine abstraction handed to the nearest-point scan.
On an empty track the Python code would fault in
`find_nearest_point`; the model returns the state unchanged there. -/
def addMarker (dist : ℚ → ℚ → TrackPoint → ℚ) (mm : MarkerManager)
    (name : String) (latitude longitude : ℚ)
    (insertBeforeLast : Bool := false) : MarkerManager :=
  match findNearestPoint (dist latitude longitude) mm.points with
  | none => mm
  | some tp =>
      let pos :=
        if insertBeforeLast ∧ 1 ≤ mm.markers.length then mm.markers.length - 1
        else mm.markers.length
      let marker : Marker :=
        { name := name, latitude := tp.latitude, longitude := tp.longitude
          track_point := tp, index := pos }
      { mm with markers := renumberFrom (pos + 1) 0 (insertAt mm.markers pos marker) }

/-- `MarkerManager.remove_marker`: silent no-op outside
`[0, len(markers))`, otherwise pop and renumber every remaining
marker. -/
def removeMarker (mm : MarkerManager) (index : ℤ) : MarkerManager :=
  if 0 ≤ index ∧ index < (mm.markers.length : ℤ) then
    { mm with markers := renumberFrom 0 0 (mm.markers.eraseIdx index.toNat) }
  else mm

/-- `MarkerManager.clear_markers`. -/
def clearMarkers (mm : MarkerManager) : MarkerManager :=
  { mm with markers := [] }

/-- `MarkerManager.get_marker`: `None` outside `[0, len(markers))`. -/
def getMarker (mm : MarkerManager) (index : ℤ) : Option Marker :=
  if 0 ≤ index ∧ index < (mm.markers.length : ℤ) then
    some (mm.markers.getD index.toNat dummyMarker)
  else none

/-- `MarkerManager.get_all_markers` (the Python `.copy()` is identity
on the value model). -/
def getAllMarkers (mm : MarkerManager) : List Marker := mm.markers

/-- `MarkerManager.move_marker_up`: swap with the previous marker and
fix both `index` fields; `(false, unchanged)` when `index <= 0` or
`index >= len(markers)`. -/
def moveMarkerUp (mm : MarkerManager) (index : ℤ) : Bool × MarkerManager :=
  if index ≤ 0 ∨ (mm.markers.length : ℤ) ≤ index then (false, mm)
  else
    let j := index.toNat
    let a := mm.markers.getD (j - 1) dummyMarker
    let b := mm.markers.getD j dummyMarker
    (true,
      { mm with
          markers :=
            (mm.markers.set (j - 1) { b with index := j - 1 }).set j
              { a with index := j } })

/-- `MarkerManager.move_marker_down`: swap with the next marker and fix
both `index` fields; `(false, unchanged)` when `index < 0` or
`index >= len(markers) - 1`. -/
def moveMarkerDown (mm : MarkerManager) (index : ℤ) : Bool × MarkerManager :=
  if index < 0 ∨ (mm.markers.length : ℤ) - 1 ≤ index then (false, mm)
  else
    let j := index.toNat
    let a := mm.markers.getD j dummyMarker
    let b := mm.markers.getD (j + 1) dummyMarker
    (true,
      { mm with
          markers :=
            (mm.markers.set j { b with index := j }).set (j + 1)
              { a with index := j + 1 } })

/-- `MarkerManager.get_segment`: absent result when either marker index
is out of bounds; otherwise the segment from
`get_segment_between_points` with the average gradient
`ascent / distance * 100` (0 when the distance is 0). -/
def getSegment (sg : List ℚ → ℕ → ℕ → List ℚ) (mm : MarkerManager)
    (startIndex endIndex : ℤ) : Option Segment :=
  match getMarker mm startIndex, getMarker mm endIndex with
  | some sm, some em =>
      let r := getSegmentBetweenPoints sg mm.points sm.track_point em.track_point
      some
        { start_marker := sm
          end_marker := em
          distance := r.2.1
          ascent := r.2.2.1
          descent := r.2.2.2
          track_points := r.1
          avg_gradient := if 0 < r.2.1 then r.2.2.1 / r.2.1 * 100 else 0 }
  | _, _ => none

/-- `MarkerManager.get_all_segments`: segments of every consecutive
marker pair, skipping absent results. -/
def getAllSegments (sg : List ℚ → ℕ → ℕ → List ℚ) (mm : MarkerManager) :
    List Segment :=
  (List.range (mm.markers.length - 1)).filterMap
    fun i => getSegment sg mm (i : ℤ) ((i : ℤ) + 1)

/-- `MarkerManager.get_marker_count`. -/
def getMarkerCount (mm : MarkerManager) : ℕ := mm.markers.length

/-! ### Service layer (`gpx_service.py`) -/

/-- The columns of the Polars DataFrame built by
`GPXAnalyzer.get_dataframe`. -/
structure TrackDataFrame where
  latitude : List ℚ
  longitude : List ℚ
  elevation : List ℚ
  distance : List ℚ
  index : List ℕ
  course : List (Option ℚ)
deriving DecidableEq, Repr

/-- `GPXAnalyzer.get_dataframe` on the extracted points. -/
def getDataframe (points : List TrackPoint) : TrackDataFrame :=
  { latitude := points.map (·.latitude)
    longitude := points.map (·.longitude)
    elevation := points.map (·.elevation)
    distance := points.map (·.distance_from_start)
    index := points.map (·.index)
    course := points.map (·.course) }

/-- The analyzer as the service sees it, represented by its extracted
track points (the one product every delegated call consumes). -/
structure Analyzer where
  points : List TrackPoint
deriving DecidableEq, Repr

/-- `GPXService` state: `_gpx`, `_analyzer` and `_marker_manager`, all
`None` until a successful load. -/
structure GPXService where
  gpx : Option GPXDoc
  analyzer : Option Analyzer
  markerManager : Option MarkerManager

/-- The state `GPXService.__init__` (and `reset`) produces. -/
def GPXService.initial : GPXService :=
  { gpx := none, analyzer := none, markerManager := none }

/-- The unloaded-state error message every guarded operation raises. -/
def noDataMsg : String := "No GPX data loaded"

/-- `GPXService.get_stats`. -/
def serviceGetStats (sg : List ℚ → ℕ → ℕ → List ℚ) (s : GPXService) :
    Except String GPXStats :=
  match s.analyzer with
  | none => .error noDataMsg
  | some a => .ok (calculateStats sg a.points)

/-- `GPXService.get_track_dataframe`. -/
def serviceGetTrackDataframe (s : GPXService) : Except String TrackDataFrame :=
  match s.analyzer with
  | none => .error noDataMsg
  | some a => .ok (getDataframe a.points)

/-- `GPXService.add_marker` (returns the updated service state; the
Python method mutates in place and returns `None`). -/
def serviceAddMarker (dist : ℚ → ℚ → TrackPoint → ℚ) (s : GPXService)
    (name : String) (latitude longitude : ℚ)
    (insertBeforeLast : Bool := false) : Except String GPXService :=
  match s.markerManager with
  | none => .error noDataMsg
  | some mm =>
      let mm' := addMarker dist mm name latitude longitude insertBeforeLast
      .ok { s with markerManager := some mm' }

/-- `GPXService.remove_marker`. -/
def serviceRemoveMarker (s : GPXService) (index : ℤ) :
    Except String GPXService :=
  match s.markerManager with
  | none => .error noDataMsg
  | some mm => .ok { s with markerManager := some (removeMarker mm index) }

/-- `GPXService.clear_markers`. -/
def serviceClearMarkers (s : GPXService) : Except String GPXService :=
  match s.markerManager with
  | none => .error noDataMsg
  | some mm => .ok { s with markerManager := some (clearMarkers mm) }

/-- `GPXService.get_markers`. -/
def serviceGetMarkers (s : GPXService) : Except String (List Marker) :=
  match s.markerManager with
  | none => .error noDataMsg
  | some mm => .ok (getAllMarkers mm)

/-- `GPXService.get_segments`. -/
def serviceGetSegments (sg : List ℚ → ℕ → ℕ → List ℚ) (s : GPXService) :
    Except String (List Segment) :=
  match s.markerManager with
  | none => .error noDataMsg
  | some mm => .ok (getAllSegments sg mm)

/-- `GPXService.get_segment`. -/
def serviceGetSegment (sg : List ℚ → ℕ → ℕ → List ℚ) (s : GPXService)
    (startIndex endIndex : ℤ) : Except String (Option Segment) :=
  match s.markerManager with
  | none => .error noDataMsg
  | some mm => .ok (getSegment sg mm startIndex endIndex)

/-- `GPXService.move_marker_up` (boolean result plus updated state). -/
def serviceMoveMarkerUp (s : GPXService) (index : ℤ) :
    Except String (Bool × GPXService) :=
  match s.markerManager with
  | none => .error noDataMsg
  | some mm =>
      let r := moveMarkerUp mm index
      .ok (r.1, { s with markerManager := some r.2 })

/-- `GPXService.move_marker_down`. -/
def serviceMoveMarkerDown (s : GPXService) (index : ℤ) :
    Except String (Bool × GPXService) :=
  match s.markerManager with
  | none => .error noDataMsg
  | some mm =>
      let r := moveMarkerDown mm index
      .ok (r.1, { s with markerManager := some r.2 })

/-- The marker-list invariant: every marker's `index` field equals its
array position. -/
def markersInv (ms : List Marker) : Prop :=
  ∀ i (h : i < ms.length), (ms.get ⟨i, h⟩).index = i

/-- One `add_marker` call's arguments, used to state properties of
arbitrary sequences of adds. -/
structure AddSpec where
  dist : ℚ → ℚ → TrackPoint → ℚ
  name : String
  latitude : ℚ
  longitude : ℚ
  insertBeforeLast : Bool

/-- Apply one `add_marker` call described by an `AddSpec`. -/
def applyAdd (mm : MarkerManager) (a : AddSpec) : MarkerManager :=
  addMarker a.dist mm a.name a.latitude a.longitude a.insertBeforeLast

/-! ### Concrete instances used by witnesses and counterexamples -/

/-- The all-zero track point. -/
def zeroTrackPoint : TrackPoint :=
  { latitude := 0, longitude := 0, elevation := 0
    distance_from_start := 0, index := 0, course := none }

/-- The identity smoothing filter, a legitimate instance of the
abstracted Savitzky–Golay parameter. -/
def sgId : List ℚ → ℕ → ℕ → List ℚ := fun l _ _ => l

/-- A two-sample cumulative-distance array reaching 150 m. -/
def dW : List ℚ := [0, 150]

/-- A two-sample elevation array for `dW`. -/
def eW : List ℚ := [100, 130]

/-- First point of the two-point counterexample track: elevation 100 m
at cumulative distance 0. -/
def ptA : TrackPoint :=
  { latitude := 0, longitude := 0, elevation := 100
    distance_from_start := 0, index := 0, course := none }

/-- Second point of the two-point counterexample track: elevation
130 m at cumulative distance 101 m (just above the 100 m resampling
minimum). -/
def ptB : TrackPoint :=
  { latitude := 0, longitude := 0, elevation := 130
    distance_from_start := 101, index := 1, course := none }

/-- The loaded two-point counterexample track. -/
def pts2 : List TrackPoint := [ptA, ptB]

/-- A raw document from which `pts2` is extracted (with the constant
distance function 101). -/
def raw2 : GPXDoc :=
  [[[{ latitude := 0, longitude := 0, elevation := some 100 },
     { latitude := 0, longitude := 0, elevation := some 130 }]]]

/-! ### Helper lemmas -/

/-- A list with fewer than two entries has no consecutive differences. -/
theorem diffs_eq_nil_of_short (l : List ℚ) (h : l.length < 2) : diffs l = [] := by
  match l with
  | [] => rfl
  | [a] => rfl
  | a :: b :: rest => exact absurd h (by simp only [List.length_cons]; omega)

/-- `buildTrackPoints` yields one track point per raw sample. -/
theorem buildTrackPoints_length (d : RawPoint → RawPoint → ℚ) :
    ∀ (l : List RawPoint) (prev : Option RawPoint) (cum : ℚ) (idx : ℕ),
      (buildTrackPoints d prev cum idx l).length = l.length
  | [], _, _, _ => rfl
  | _ :: rest, prev, cum, idx => by
      simp [buildTrackPoints, buildTrackPoints_length d rest]

/-- Every point built from cumulative distance `cum` onwards sits at
distance at least `cum`, provided the distance function is
non-negative. -/
theorem buildTrackPoints_dist_ge (d : RawPoint → RawPoint → ℚ)
    (hd : ∀ a b, 0 ≤ d a b) (l : List RawPoint) :
    ∀ (prev : Option RawPoint) (cum : ℚ) (idx : ℕ),
      ∀ q ∈ buildTrackPoints d prev cum idx l, cum ≤ q.distance_from_start := by
  induction l with
  | nil => intro prev cum idx q hq; simp [buildTrackPoints] at hq
  | cons p rest ih =>
      intro prev cum idx q hq
      have hcum : ∀ cum' : ℚ,
          (cum ≤ cum') →
          q ∈ ({ latitude := p.latitude, longitude := p.longitude,
                 elevation := p.elevation.getD 0, distance_from_start := cum',
                 index := idx, course := p.course } : TrackPoint)
              :: buildTrackPoints d (some p) cum' (idx + 1) rest →
          cum ≤ q.distance_from_start := by
        intro cum' hle hq'
        rcases List.mem_cons.mp hq' with h | h
        · rw [h]; exact hle
        · exact le_trans hle (ih (some p) cum' (idx + 1) q h)
      cases prev with
      | none => exact hcum cum le_rfl (by simpa [buildTrackPoints] using hq)
      | some pr =>
          exact hcum (cum + d pr p) (by linarith [hd pr p])
            (by simpa [buildTrackPoints] using hq)

/-- Cumulative distances are non-decreasing along the built track,
provided the distance function is non-negative. -/
theorem buildTrackPoints_chain (d : RawPoint → RawPoint → ℚ)
    (hd : ∀ a b, 0 ≤ d a b) (l : List RawPoint) :
    ∀ (prev : Option RawPoint) (cum : ℚ) (idx : ℕ),
      List.Chain' (fun p q => p.distance_from_start ≤ q.distance_from_start)
        (buildTrackPoints d prev cum idx l) := by
  induction l with
  | nil => intro prev cum idx; simp [buildTrackPoints]
  | cons p rest ih =>
      intro prev cum idx
      have key : ∀ cum' : ℚ,
          List.Chain' (fun p q => p.distance_from_start ≤ q.distance_from_start)
            (({ latitude := p.latitude, longitude := p.longitude,
                elevation := p.elevation.getD 0, distance_from_start := cum',
                index := idx, course := p.course } : TrackPoint)
              :: buildTrackPoints d (some p) cum' (idx + 1) rest) := by
        intro cum'
        rw [List.chain'_cons']
        refine ⟨?_, ih (some p) cum' (idx + 1)⟩
        intro h hh
        exact buildTrackPoints_dist_ge d hd rest (some p) cum' (idx + 1) h
          (List.mem_of_mem_head? hh)
      cases prev with
      | none => simpa [buildTrackPoints] using key cum
      | some pr => simpa [buildTrackPoints] using key (cum + d pr p)

/-- The `index` field of the `i`-th built point is the running index
`idx` plus `i`. -/
theorem buildTrackPoints_index (d : RawPoint → RawPoint → ℚ)
    (l : List RawPoint) :
    ∀ (prev : Option RawPoint) (cum : ℚ) (idx : ℕ) (i : ℕ)
      (h : i < (buildTrackPoints d prev cum idx l).length),
      ((buildTrackPoints d prev cum idx l).get ⟨i, h⟩).index = idx + i := by
  induction l with
  | nil => intro prev cum idx i h; simp [buildTrackPoints] at h
  | cons p rest ih =>
      intro prev cum idx i h
      have key : ∀ (cum' : ℚ) (h' : i <
          (({ latitude := p.latitude, longitude := p.longitude,
              elevation := p.elevation.getD 0, distance_from_start := cum',
              index := idx, course := p.course } : TrackPoint)
            :: buildTrackPoints d (some p) cum' (idx + 1) rest).length),
          ((({ latitude := p.latitude, longitude := p.longitude,
               elevation := p.elevation.getD 0, distance_from_start := cum',
               index := idx, course := p.course } : TrackPoint)
             :: buildTrackPoints d (some p) cum' (idx + 1) rest).get
            ⟨i, h'⟩).index = idx + i := by
        intro cum' h'
        match i with
        | 0 => rfl
        | Nat.succ j =>
            have hj : j < (buildTrackPoints d (some p) cum' (idx + 1) rest).length := by
              simpa [Nat.succ_lt_succ_iff] using h'
            have := ih (some p) cum' (idx + 1) j hj
            simpa [List.get_cons_succ, Nat.add_assoc, Nat.add_comm 1 j] using this
      cases prev with
      | none =>
          have h' := h
          simp only [buildTrackPoints] at h' ⊢
          exact key cum h'
      | some pr =>
          have h' := h
          simp only [buildTrackPoints] at h' ⊢
          exact key (cum + d pr p) h'

/-- Invariant of the nearest-point scan once a current best with its
distance is installed: the result beats the carried bound, is the
carried best or a strictly better list element, is minimal over the
remaining list, and, unless it is the carried best, splits the list
with every earlier element strictly farther. -/
theorem nearestGo_some_spec (dist : TrackPoint → ℚ) (l : List TrackPoint) :
    ∀ (b : TrackPoint) (m : ℚ), m = dist b →
      dist (nearestGo dist b (some m) l) ≤ m ∧
      (nearestGo dist b (some m) l = b ∨
        (nearestGo dist b (some m) l ∈ l ∧ dist (nearestGo dist b (some m) l) < m)) ∧
      (∀ q ∈ l, dist (nearestGo dist b (some m) l) ≤ dist q) ∧
      (nearestGo dist b (some m) l = b ∨
        ∃ l1 l2, l = l1 ++ nearestGo dist b (some m) l :: l2 ∧
          ∀ q ∈ l1, dist (nearestGo dist b (some m) l) < dist q) := by
  induction l with
  | nil =>
      intro b m hm
      refine ⟨le_of_eq hm.symm, Or.inl rfl, ?_, Or.inl rfl⟩
      intro q hq
      exact absurd hq (List.not_mem_nil q)
  | cons p rest ih =>
      intro b m hm
      by_cases hlt : dist p < m
      · have hgo : nearestGo dist b (some m) (p :: rest)
            = nearestGo dist p (some (dist p)) rest := by
          simp [nearestGo, hlt]
        obtain ⟨h1, h2, h3, h4⟩ := ih p (dist p) rfl
        rw [hgo]
        refine ⟨h1.trans hlt.le, ?_, ?_, ?_⟩
        · rcases h2 with h | ⟨hmem, hlt'⟩
          · exact Or.inr ⟨by rw [h]; exact List.mem_cons_self p rest,
              by rw [h]; exact hlt⟩
          · exact Or.inr ⟨List.mem_cons_of_mem p hmem, hlt'.trans hlt⟩
        · intro q hq
          rcases List.mem_cons.mp hq with h | h
          · rw [h]; exact h1
          · exact h3 q h
        · rcases h2 with h | ⟨hmem, hlt'⟩
          · exact Or.inr ⟨[], rest, by simp [h], by intro q hq; simp at hq⟩
          · rcases h4 with h | ⟨l1, l2, heq, hstrict⟩
            · exact Or.inr ⟨[], rest, by simp [h], by intro q hq; simp at hq⟩
            · refine Or.inr ⟨p :: l1, l2,
                by rw [List.cons_append]; exact congrArg (List.cons p) heq, ?_⟩
              intro q hq
              rcases List.mem_cons.mp hq with h | h
              · rw [h]; exact hlt'
              · exact hstrict q h
      · have hgo : nearestGo dist b (some m) (p :: rest)
            = nearestGo dist b (some m) rest := by
          simp [nearestGo, hlt]
        obtain ⟨h1, h2, h3, h4⟩ := ih b m hm
        rw [hgo]
        refine ⟨h1, ?_, ?_, ?_⟩
        · rcases h2 with h | ⟨hmem, hlt'⟩
          · exact Or.inl h
          · exact Or.inr ⟨List.mem_cons_of_mem p hmem, hlt'⟩
        · intro q hq
          rcases List.mem_cons.mp hq with h | h
          · rw [h]; exact h1.trans (not_lt.mp hlt)
          · exact h3 q h
        · rcases h2 with h | ⟨hmem, hlt'⟩
          · exact Or.inl h
          · rcases h4 with h | ⟨l1, l2, heq, hstrict⟩
            · rw [h] at hlt'
              rw [hm] at hlt'
              exact absurd hlt' (lt_irrefl _)
            · refine Or.inr ⟨p :: l1, l2,
                by rw [List.cons_append]; exact congrArg (List.cons p) heq, ?_⟩
              intro q hq
              rcases List.mem_cons.mp hq with h | h
              · rw [h]; exact hlt'.trans_le (not_lt.mp hlt)
              · exact hstrict q h

/-- `renumberFrom` keeps the list length. -/
theorem length_renumberFrom (k : ℕ) :
    ∀ (ms : List Marker) (i : ℕ), (renumberFrom k i ms).length = ms.length
  | [], _ => rfl
  | _ :: rest, i => by simp [renumberFrom, length_renumberFrom k rest (i + 1)]

/-- Entry `j` of `renumberFrom k i ms`: renumbered to absolute position
`i + j` when that position is at least `k`, untouched otherwise. -/
theorem get_renumberFrom (k : ℕ) :
    ∀ (ms : List Marker) (i j : ℕ) (h : j < (renumberFrom k i ms).length)
      (h' : j < ms.length),
      (renumberFrom k i ms).get ⟨j, h⟩ =
        if k ≤ i + j then { ms.get ⟨j, h'⟩ with index := i + j }
        else ms.get ⟨j, h'⟩
  | [], i, j, h, h' => absurd h' (by simp)
  | m :: rest, i, 0, h, h' => by simp [renumberFrom]
  | m :: rest, i, j + 1, h, h' => by
      have hr : j < (renumberFrom k (i + 1) rest).length := by
        simpa [renumberFrom] using h
      have hr' : j < rest.length := by simpa using h'
      have := get_renumberFrom k rest (i + 1) j hr hr'
      simp only [renumberFrom, List.get_cons_succ, this]
      have harith : i + 1 + j = i + (j + 1) := by omega
      rw [harith]

/-- Renumbering from `k` restores the index invariant as soon as the
entries strictly below position `k` already satisfy it. -/
theorem markersInv_renumberFrom (k : ℕ) (ms : List Marker)
    (hpre : ∀ j (h : j < ms.length), j < k → (ms.get ⟨j, h⟩).index = j) :
    markersInv (renumberFrom k 0 ms) := by
  intro j h
  have h' : j < ms.length := by
    have := length_renumberFrom k ms 0
    omega
  rw [get_renumberFrom k ms 0 j h h']
  by_cases hk : k ≤ j
  · rw [if_pos (by omega)]
    simp
  · rw [if_neg (by omega)]
    exact hpre j h' (by omega)

/-- `insertAt` grows the list by one. -/
theorem length_insertAt :
    ∀ (ms : List Marker) (pos : ℕ) (m : Marker),
      (insertAt ms pos m).length = ms.length + 1
  | _, 0, _ => by simp [insertAt]
  | [], _ + 1, _ => by simp [insertAt]
  | a :: rest, pos + 1, m => by
      simp [insertAt, length_insertAt rest pos m]

/-- Entries strictly before the insertion point are untouched. -/
theorem get_insertAt_lt :
    ∀ (ms : List Marker) (pos : ℕ) (m : Marker) (j : ℕ)
      (h : j < (insertAt ms pos m).length) (h' : j < ms.length),
      j < pos → (insertAt ms pos m).get ⟨j, h⟩ = ms.get ⟨j, h'⟩
  | _, 0, _, j, _, _, hj => absurd hj (by omega)
  | [], _ + 1, _, j, _, h', _ => absurd h' (by simp)
  | a :: rest, pos + 1, m, 0, h, h', hj => by simp [insertAt]
  | a :: rest, pos + 1, m, j + 1, h, h', hj => by
      have hr : j < (insertAt rest pos m).length := by
        simpa [insertAt] using h
      have hr' : j < rest.length := by simpa using h'
      simpa [insertAt] using get_insertAt_lt rest pos m j hr hr' (by omega)

/-- The inserted marker sits at the insertion position (when that
position is within range). -/
theorem get_insertAt_self :
    ∀ (ms : List Marker) (pos : ℕ) (m : Marker)
      (hpos : pos ≤ ms.length) (h : pos < (insertAt ms pos m).length),
      (insertAt ms pos m).get ⟨pos, h⟩ = m
  | _, 0, _, _, _ => by simp [insertAt]
  | [], pos + 1, _, hpos, _ => absurd hpos (by simp)
  | a :: rest, pos + 1, m, hpos, h => by
      have hr : pos < (insertAt rest pos m).length := by
        simpa [insertAt] using h
      simpa [insertAt] using
        get_insertAt_self rest pos m (by simpa using hpos) hr

/-- `add_marker` preserves the index invariant. -/
theorem markersInv_addMarker (dist : ℚ → ℚ → TrackPoint → ℚ)
    (mm : MarkerManager) (name : String) (lat lon : ℚ) (ibl : Bool)
    (hinv : markersInv mm.markers) :
    markersInv (addMarker dist mm name lat lon ibl).markers := by
  unfold addMarker
  cases findNearestPoint (dist lat lon) mm.points with
  | none => exact hinv
  | some tp =>
      simp only
      apply markersInv_renumberFrom
      intro j hj hjlt
      set pos := if ibl ∧ 1 ≤ mm.markers.length then mm.markers.length - 1
        else mm.markers.length with hposdef
      have hpos : pos ≤ mm.markers.length := by
        rw [hposdef]; split <;> omega
      have hj' : j ≤ pos := by omega
      rcases lt_or_eq_of_le hj' with hlt | heq
      · have hjm : j < mm.markers.length := by omega
        rw [get_insertAt_lt mm.markers pos _ j hj hjm hlt]
        exact hinv j hjm
      · subst heq
        rw [get_insertAt_self mm.markers pos _ hpos hj]

/-- `remove_marker` preserves the index invariant (re-establishing it
outright in the removing branch, keeping the list in the no-op
branch). -/
theorem markersInv_removeMarker (mm : MarkerManager) (i : ℤ)
    (hinv : markersInv mm.markers) :
    markersInv (removeMarker mm i).markers := by
  unfold removeMarker
  split
  · exact markersInv_renumberFrom 0 _ (fun j h hj => by omega)
  · exact hinv

/-- `move_marker_up` preserves the index invariant. -/
theorem markersInv_moveMarkerUp (mm : MarkerManager) (i : ℤ)
    (hinv : markersInv mm.markers) :
    markersInv (moveMarkerUp mm i).2.markers := by
  unfold moveMarkerUp
  split
  · exact hinv
  · rename_i hcond
    have h1 : 1 ≤ i := by omega
    have h2 : i < (mm.markers.length : ℤ) := by omega
    have hj1 : 1 ≤ i.toNat := by omega
    have hjlen : i.toNat < mm.markers.length := by omega
    intro t ht
    have htlen : t < mm.markers.length := by
      simpa using ht
    rw [List.get_eq_getElem, List.getElem_set, List.getElem_set]
    by_cases hti : i.toNat = t
    · rw [if_pos hti]
      simpa using hti
    · rw [if_neg hti]
      by_cases hti1 : i.toNat - 1 = t
      · rw [if_pos hti1]
        simpa using hti1
      · rw [if_neg hti1]
        exact hinv t htlen

/-- `move_marker_down` preserves the index invariant. -/
theorem markersInv_moveMarkerDown (mm : MarkerManager) (i : ℤ)
    (hinv : markersInv mm.markers) :
    markersInv (moveMarkerDown mm i).2.markers := by
  unfold moveMarkerDown
  split
  · exact hinv
  · rename_i hcond
    have h0 : 0 ≤ i := by omega
    have h2 : i < (mm.markers.length : ℤ) - 1 := by omega
    intro t ht
    have htlen : t < mm.markers.length := by
      simpa using ht
    rw [List.get_eq_getElem, List.getElem_set, List.getElem_set]
    by_cases hti : i.toNat + 1 = t
    · rw [if_pos hti]
      simpa using hti
    · rw [if_neg hti]
      by_cases hti0 : i.toNat = t
      · rw [if_pos hti0]
        simpa using hti0
      · rw [if_neg hti0]
        exact hinv t htlen

/-- `add_marker` never touches the track points. -/
theorem points_addMarker (dist : ℚ → ℚ → TrackPoint → ℚ)
    (mm : MarkerManager) (name : String) (lat lon : ℚ) (ibl : Bool) :
    (addMarker dist mm name lat lon ibl).points = mm.points := by
  unfold addMarker
  cases findNearestPoint (dist lat lon) mm.points <;> rfl

/-- On a non-empty track, `add_marker` grows the marker list by one. -/
theorem length_addMarker (dist : ℚ → ℚ → TrackPoint → ℚ)
    (mm : MarkerManager) (name : String) (lat lon : ℚ) (ibl : Bool)
    (hpts : mm.points ≠ []) :
    (addMarker dist mm name lat lon ibl).markers.length
      = mm.markers.length + 1 := by
  obtain ⟨p0, tl, hp⟩ : ∃ p0 tl, mm.points = p0 :: tl := by
    cases h : mm.points with
    | nil => exact absurd h hpts
    | cons a b => exact ⟨a, b, rfl⟩
  unfold addMarker
  rw [hp]
  simp only [findNearestPoint]
  simp [length_renumberFrom, length_insertAt]

/-- A fold of `add_marker` calls over a manager on a non-empty track
preserves the index invariant, adds one marker per call, and keeps the
track points. -/
theorem foldl_applyAdd_spec (adds : List AddSpec) :
    ∀ mm : MarkerManager, mm.points ≠ [] → markersInv mm.markers →
      markersInv (adds.foldl applyAdd mm).markers ∧
      (adds.foldl applyAdd mm).markers.length
        = mm.markers.length + adds.length ∧
      (adds.foldl applyAdd mm).points = mm.points := by
  induction adds with
  | nil => intro mm _ hinv; exact ⟨hinv, by simp, rfl⟩
  | cons a rest ih =>
      intro mm hpts hinv
      have hinv' : markersInv (applyAdd mm a).markers :=
        markersInv_addMarker a.dist mm a.name a.latitude a.longitude
          a.insertBeforeLast hinv
      have hpt' : (applyAdd mm a).points = mm.points :=
        points_addMarker a.dist mm a.name a.latitude a.longitude
          a.insertBeforeLast
      have hpts' : (applyAdd mm a).points ≠ [] := by rw [hpt']; exact hpts
      obtain ⟨h1, h2, h3⟩ := ih (applyAdd mm a) hpts' hinv'
      refine ⟨by simpa using h1, ?_, by simpa [hpt'] using h3⟩
      have hlen : (applyAdd mm a).markers.length = mm.markers.length + 1 :=
        length_addMarker a.dist mm a.name a.latitude a.longitude
          a.insertBeforeLast hpts
      simp only [List.foldl_cons] at h2 ⊢
      rw [h2, hlen]
      simp [List.length_cons]
      omega

/-- `remove_marker` at an in-range index shrinks the marker list by
one. -/
theorem length_removeMarker (mm : MarkerManager) (i : ℤ)
    (h0 : 0 ≤ i) (h1 : i < (mm.markers.length : ℤ)) :
    (removeMarker mm i).markers.length = mm.markers.length - 1 := by
  unfold removeMarker
  rw [if_pos ⟨h0, h1⟩]
  simp only [length_renumberFrom]
  rw [List.length_eraseIdx]
  rw [if_pos (show i.toNat < mm.markers.length by omega)]

/-- `getD` through a map over `List.range`. -/
theorem getD_map_range (f : ℕ → ℚ) (n i : ℕ) (h : i < n) :
    ((List.range n).map f).getD i 0 = f i := by
  rw [List.getD_eq_getElem _ _ (by simpa using h)]
  simp

/-- `getD` through a map on rational lists. -/
theorem getD_map_q (f : ℚ → ℚ) (l : List ℚ) (i : ℕ) (h : i < l.length) :
    (l.map f).getD i 0 = f (l.getD i 0) := by
  rw [List.getD_eq_getElem _ _ (by simpa using h), List.getD_eq_getElem _ _ h]
  simp

/-- Length of `linspace` with at least two samples. -/
theorem length_linspace (a b : ℚ) (num : ℤ) (h : 2 ≤ num) :
    (linspace a b num).length = num.toNat := by
  unfold linspace
  rw [if_neg (by omega), if_neg (by omega)]
  simp

/-- Entries of `linspace` with at least two samples. -/
theorem getD_linspace (a b : ℚ) (num : ℤ) (h : 2 ≤ num) (i : ℕ)
    (hi : i < num.toNat) :
    (linspace a b num).getD i 0 = a + (b - a) * i / ((num.toNat : ℚ) - 1) := by
  unfold linspace
  rw [if_neg (by omega), if_neg (by omega)]
  exact getD_map_range _ _ _ hi

/-- Explicit form of `_resample_by_distance` for a long-enough input
pair whose last cumulative distance `t` is positive. -/
theorem resampleByDistance_eq (d e : List ℚ) (t : ℚ)
    (hd2 : 2 ≤ d.length) (he2 : 2 ≤ e.length)
    (hlast : d.getLast?.getD 0 = t) (ht : 0 < t) :
    resampleByDistance d e distanceResamplingMeters =
      (linspace 0 t (⌊t / distanceResamplingMeters⌋ + 1),
        (linspace 0 t (⌊t / distanceResamplingMeters⌋ + 1)).map
          fun x => interp x d e) := by
  unfold resampleByDistance
  rw [if_neg (by omega)]
  have hpy : pyInt (t / distanceResamplingMeters) = ⌊t / distanceResamplingMeters⌋ := by
    unfold pyInt
    rw [if_neg]
    rw [not_lt]
    have : (0 : ℚ) < distanceResamplingMeters := by norm_num [distanceResamplingMeters]
    positivity
  simp only [hlast, hpy]

/-- Above the resampling minimum the grid-size floor is at least 10. -/
theorem resample_floor_ge (t : ℚ) (ht : minDistanceForResampling < t) :
    10 ≤ ⌊t / distanceResamplingMeters⌋ := by
  have h10 : (10 : ℚ) ≤ t / distanceResamplingMeters := by
    rw [le_div_iff (by norm_num [distanceResamplingMeters] : (0:ℚ) < distanceResamplingMeters)]
    have : (100 : ℚ) < t := by
      simpa [minDistanceForResampling] using ht
    norm_num [distanceResamplingMeters]
    linarith
  exact Int.le_floor.mpr (by exact_mod_cast h10)

/-! ### Claims -/

/-- C2. `_calculate_elevation_gain_loss` with threshold `t` returns
ascent equal to the sum of the consecutive differences strictly greater
than `t` and descent equal to the absolute value of the sum of the
consecutive differences strictly less than `-t`; fewer than 2 samples
yields `(0, 0)`; with threshold 0.5, `[100,105,110,115,115,110,105,100]`
yields `(15, 15)` and `[100,100,100]` yields `(0, 0)`. -/
theorem C2_elevation_gain_loss_spec (e : List ℚ) (t : ℚ) :
    calculateElevationGainLoss e t =
      (((diffs e).filter fun x => t < x).sum,
        |((diffs e).filter fun x => x < -t).sum|) ∧
    (e.length < 2 → calculateElevationGainLoss e t = (0, 0)) ∧
    calculateElevationGainLoss [100, 105, 110, 115, 115, 110, 105, 100] (1/2)
      = (15, 15) ∧
    calculateElevationGainLoss [100, 100, 100] (1/2) = (0, 0) := by
  refine ⟨?_, fun h => by simp [calculateElevationGainLoss, h],
    by norm_num [calculateElevationGainLoss, diffs, List.filter],
    by norm_num [calculateElevationGainLoss, diffs, List.filter]⟩
  unfold calculateElevationGainLoss
  split
  · rename_i h
    rw [diffs_eq_nil_of_short e h]
    simp
  · rfl

/-- C4. With fewer than 20 elevation samples, `_remove_outliers` and
`_smooth_elevation_advanced` both return their input unchanged (for
every smoothing filter `sg`), so the pipeline output before the
threshold step equals the input array. -/
theorem C4_short_arrays_noop (sg : List ℚ → ℕ → ℕ → List ℚ)
    (e : List ℚ) (h : e.length < 20) :
    removeOutliers e = e ∧
    smoothElevationAdvanced sg e = e ∧
    smoothElevationAdvanced sg (removeOutliers e) = e := by
  have hro : removeOutliers e = e := by simp [removeOutliers, h]
  have hsm : smoothElevationAdvanced sg e = e := by
    simp [smoothElevationAdvanced, h]
  exact ⟨hro, hsm, by rw [hro, hsm]⟩

/-- Witness for C4 at the concrete two-sample array `[100, 105]` and the
identity smoothing filter. -/
theorem C4_short_arrays_noop_witness :
    ([(100 : ℚ), 105].length < 20) ∧
    (removeOutliers [(100 : ℚ), 105] = [(100 : ℚ), 105] ∧
      smoothElevationAdvanced (fun l _ _ => l) [(100 : ℚ), 105] = [(100 : ℚ), 105] ∧
      smoothElevationAdvanced (fun l _ _ => l)
        (removeOutliers [(100 : ℚ), 105]) = [(100 : ℚ), 105]) :=
  ⟨by norm_num, C4_short_arrays_noop (fun l _ _ => l) [(100 : ℚ), 105] (by norm_num)⟩

/-- C8. `move_marker_up 0`, `move_marker_down lastIndex` and any
out-of-range index return `false` with the marker list completely
unchanged, and `remove_marker` with an index outside `[0, length)` is a
silent no-op; in the model the index errors are plain return values,
never failing computations. -/
theorem C8_marker_index_errors (mm : MarkerManager) (i : ℤ)
    (h : i < 0 ∨ (mm.markers.length : ℤ) ≤ i) :
    moveMarkerUp mm 0 = (false, mm) ∧
    moveMarkerDown mm ((mm.markers.length : ℤ) - 1) = (false, mm) ∧
    moveMarkerUp mm i = (false, mm) ∧
    moveMarkerDown mm i = (false, mm) ∧
    removeMarker mm i = mm := by
  refine ⟨?_, ?_, ?_, ?_, ?_⟩
  · unfold moveMarkerUp
    rw [if_pos (Or.inl le_rfl)]
  · unfold moveMarkerDown
    rw [if_pos (Or.inr le_rfl)]
  · unfold moveMarkerUp
    rw [if_pos (by omega)]
  · unfold moveMarkerDown
    rw [if_pos (by omega)]
  · unfold removeMarker
    rw [if_neg (by omega)]

/-- Witness for C8 at the empty marker list and the out-of-range
index 5. -/
theorem C8_marker_index_errors_witness :
    moveMarkerUp { points := [], markers := [] } 0
      = (false, { points := [], markers := [] }) ∧
    moveMarkerDown { points := [], markers := [] }
      ((({ points := [], markers := [] } : MarkerManager).markers.length : ℤ) - 1)
      = (false, { points := [], markers := [] }) ∧
    moveMarkerUp { points := [], markers := [] } 5
      = (false, { points := [], markers := [] }) ∧
    moveMarkerDown { points := [], markers := [] } 5
      = (false, { points := [], markers := [] }) ∧
    removeMarker { points := [], markers := [] } 5
      = { points := [], markers := [] } :=
  C8_marker_index_errors { points := [], markers := [] } 5 (Or.inr (by norm_num))

/-- C9. `extract_track_points` fails with the empty-track error exactly
when the flattened raw point sequence is empty (the only validation at
this layer), and a single-point track succeeds with its one point at
cumulative distance 0. -/
theorem C9_empty_track_validation (d : RawPoint → RawPoint → ℚ) (g : GPXDoc) :
    ((∃ pts, extractTrackPoints d g = .ok pts) ↔ g.flatPoints ≠ []) ∧
    (g.flatPoints = [] →
      extractTrackPoints d g = .error "No track points found in GPX file") ∧
    (∀ p : RawPoint, g.flatPoints = [p] →
      extractTrackPoints d g =
        .ok [{ latitude := p.latitude, longitude := p.longitude,
               elevation := p.elevation.getD 0, distance_from_start := 0,
               index := 0, course := p.course }]) := by
  refine ⟨?_, ?_, ?_⟩
  · constructor
    · rintro ⟨pts, hok⟩ hflat
      rw [extractTrackPoints, hflat] at hok
      simp [buildTrackPoints] at hok
    · intro hne
      rw [extractTrackPoints]
      have hlen : (buildTrackPoints d none 0 0 g.flatPoints).length
          = g.flatPoints.length := buildTrackPoints_length d _ _ _ _
      have : ¬ (buildTrackPoints d none 0 0 g.flatPoints).isEmpty := by
        rw [List.isEmpty_iff_length_eq_zero, hlen]
        simpa [List.length_eq_zero] using hne
      rw [if_neg this]
      exact ⟨_, rfl⟩
  · intro hflat
    rw [extractTrackPoints, hflat]
    simp [buildTrackPoints]
  · intro p hflat
    rw [extractTrackPoints, hflat]
    simp [buildTrackPoints]

/-- C3. For every non-empty raw sample sequence (and every non-negative
point-to-point distance function standing for the haversine), the
track-point list built by `extract_track_points` starts at cumulative
distance 0, has non-decreasing `distance_from_start`, and numbers its
points 0, 1, 2, … by position. -/
theorem C3_extracted_track_invariants (d : RawPoint → RawPoint → ℚ)
    (g : GPXDoc) (pts : List TrackPoint)
    (hd : ∀ a b, 0 ≤ d a b)
    (hok : extractTrackPoints d g = .ok pts) :
    pts ≠ [] ∧
    pts.head?.map (·.distance_from_start) = some 0 ∧
    List.Chain' (fun p q => p.distance_from_start ≤ q.distance_from_start) pts ∧
    (∀ i (h : i < pts.length), (pts.get ⟨i, h⟩).index = i) := by
  have hpts : pts = buildTrackPoints d none 0 0 g.flatPoints ∧
      ¬ (buildTrackPoints d none 0 0 g.flatPoints).isEmpty := by
    by_cases hemp : (buildTrackPoints d none 0 0 g.flatPoints).isEmpty
    · rw [extractTrackPoints, if_pos hemp] at hok
      exact absurd hok (by simp)
    · rw [extractTrackPoints, if_neg hemp] at hok
      exact ⟨(Except.ok.injEq _ _).mp hok.symm, hemp⟩
  obtain ⟨hpts, hne⟩ := hpts
  subst hpts
  refine ⟨?_, ?_, ?_, ?_⟩
  · intro hnil
    rw [hnil] at hne
    exact hne rfl
  · cases hflat : g.flatPoints with
    | nil => rw [hflat] at hne; exact absurd rfl hne
    | cons p rest => simp [buildTrackPoints]
  · exact buildTrackPoints_chain d hd _ none 0 0
  · intro i h
    simpa using buildTrackPoints_index d g.flatPoints none 0 0 i h

/-- Witness for C3: the constant distance function 1 and a
single-point document. -/
theorem C3_extracted_track_invariants_witness :
    ([zeroTrackPoint] ≠ []) ∧
    ([zeroTrackPoint].head?.map (·.distance_from_start) = some 0) ∧
    List.Chain' (fun p q => p.distance_from_start ≤ q.distance_from_start)
      [zeroTrackPoint] ∧
    (∀ i (h : i < [zeroTrackPoint].length),
      ([zeroTrackPoint].get ⟨i, h⟩).index = i) :=
  C3_extracted_track_invariants (fun _ _ => 1)
    [[[{ latitude := 0, longitude := 0 }]]] [zeroTrackPoint]
    (fun _ _ => by norm_num)
    (by simp [extractTrackPoints, buildTrackPoints, GPXDoc.flatPoints,
      zeroTrackPoint])

/-- C6. On a non-empty track, `find_nearest_point` returns a point of
the track with minimal query distance, and every point encountered
before it is strictly farther (the strict `<` comparison keeps the
first-encountered, lowest-index minimizer).  `dist` is the per-query
haversine-distance abstraction `p ↦ haversine(lat, lon, p.lat, p.lon)`;
the theorem holds for every distance function. -/
theorem C6_find_nearest_point (dist : TrackPoint → ℚ)
    (points : List TrackPoint) (p0 : TrackPoint) (tl : List TrackPoint)
    (hpts : points = p0 :: tl) :
    ∃ r, findNearestPoint dist points = some r ∧
      (∀ q ∈ points, dist r ≤ dist q) ∧
      ∃ l1 l2, points = l1 ++ r :: l2 ∧ ∀ q ∈ l1, dist r < dist q := by
  subst hpts
  have hgo : findNearestPoint dist (p0 :: tl)
      = some (nearestGo dist p0 (some (dist p0)) tl) := by
    simp [findNearestPoint, nearestGo]
  obtain ⟨h1, h2, h3, h4⟩ := nearestGo_some_spec dist tl p0 (dist p0) rfl
  refine ⟨nearestGo dist p0 (some (dist p0)) tl, hgo, ?_, ?_⟩
  · intro q hq
    rcases List.mem_cons.mp hq with h | h
    · rw [h]; exact h1
    · exact h3 q h
  · rcases h2 with h | ⟨hmem, hlt'⟩
    · exact ⟨[], tl, by simp [h], by intro q hq; simp at hq⟩
    · rcases h4 with h | ⟨l1, l2, heq, hstrict⟩
      · exact ⟨[], tl, by simp [h], by intro q hq; simp at hq⟩
      · refine ⟨p0 :: l1, l2,
          by rw [List.cons_append]; exact congrArg (List.cons p0) heq, ?_⟩
        intro q hq
        rcases List.mem_cons.mp hq with h | h
        · rw [h]; exact hlt'
        · exact hstrict q h

/-- Witness for C6: the constant-zero distance on a one-point track. -/
theorem C6_find_nearest_point_witness :
    ∃ r, findNearestPoint (fun _ => (0 : ℚ)) [zeroTrackPoint] = some r ∧
      (∀ q ∈ [zeroTrackPoint], (0 : ℚ) ≤ 0) ∧
      ∃ l1 l2, [zeroTrackPoint] = l1 ++ r :: l2 ∧ ∀ q ∈ l1, (0 : ℚ) < 0 :=
  C6_find_nearest_point (fun _ => 0) [zeroTrackPoint] zeroTrackPoint [] rfl

/-- C7. The position-equals-`index` invariant of the marker list is
preserved by every `MarkerManager` operation — `add_marker` with any
`insert_before_last` flag, `remove_marker` at any (possibly
out-of-range) index, `move_marker_up`, `move_marker_down` and
`clear_markers` — and after any N `add_marker` calls on a fresh manager
over a non-empty track followed by one in-range `remove_marker k`, all
remaining markers' `index` fields equal their positions and the length
is N − 1. -/
theorem C7_marker_invariant_preserved (dist : ℚ → ℚ → TrackPoint → ℚ)
    (mm : MarkerManager) (name : String) (lat lon : ℚ) (ibl : Bool)
    (i : ℤ) (pts : List TrackPoint) (adds : List AddSpec) (k : ℤ)
    (hinv : markersInv mm.markers) (hpts : pts ≠ [])
    (hk0 : 0 ≤ k) (hk1 : k < (adds.length : ℤ)) :
    markersInv (addMarker dist mm name lat lon ibl).markers ∧
    markersInv (removeMarker mm i).markers ∧
    markersInv (moveMarkerUp mm i).2.markers ∧
    markersInv (moveMarkerDown mm i).2.markers ∧
    markersInv (clearMarkers mm).markers ∧
    markersInv
      (removeMarker (adds.foldl applyAdd { points := pts, markers := [] }) k).markers ∧
    (removeMarker (adds.foldl applyAdd { points := pts, markers := [] }) k).markers.length
      = adds.length - 1 := by
  obtain ⟨hfinv, hflen, _⟩ :=
    foldl_applyAdd_spec adds { points := pts, markers := [] } hpts
      (fun j h => absurd h (by simp))
  have hflen' : (adds.foldl applyAdd { points := pts, markers := [] }).markers.length
      = adds.length := by simpa using hflen
  refine ⟨markersInv_addMarker dist mm name lat lon ibl hinv,
    markersInv_removeMarker mm i hinv,
    markersInv_moveMarkerUp mm i hinv,
    markersInv_moveMarkerDown mm i hinv,
    fun j h => absurd h (by simp [clearMarkers]),
    markersInv_removeMarker _ k hfinv, ?_⟩
  rw [length_removeMarker _ k hk0 (by rw [hflen']; exact hk1), hflen']

/-- Witness for C7: a one-point track, one add, then `remove 0`. -/
theorem C7_marker_invariant_preserved_witness :
    markersInv (addMarker (fun _ _ _ => 0)
      { points := [zeroTrackPoint], markers := [] } "m" 0 0 false).markers ∧
    markersInv (removeMarker
      { points := [zeroTrackPoint], markers := [] } 0).markers ∧
    markersInv (moveMarkerUp
      { points := [zeroTrackPoint], markers := [] } 0).2.markers ∧
    markersInv (moveMarkerDown
      { points := [zeroTrackPoint], markers := [] } 0).2.markers ∧
    markersInv (clearMarkers
      { points := [zeroTrackPoint], markers := [] }).markers ∧
    markersInv
      (removeMarker
        ([({ dist := fun _ _ _ => 0, name := "a", latitude := 0,
             longitude := 0, insertBeforeLast := false } : AddSpec)].foldl
          applyAdd { points := [zeroTrackPoint], markers := [] }) 0).markers ∧
    (removeMarker
        ([({ dist := fun _ _ _ => 0, name := "a", latitude := 0,
             longitude := 0, insertBeforeLast := false } : AddSpec)].foldl
          applyAdd { points := [zeroTrackPoint], markers := [] }) 0).markers.length
      = [({ dist := fun _ _ _ => 0, name := "a", latitude := 0,
            longitude := 0, insertBeforeLast := false } : AddSpec)].length - 1 :=
  C7_marker_invariant_preserved (fun _ _ _ => 0)
    { points := [zeroTrackPoint], markers := [] } "m" 0 0 false 0
    [zeroTrackPoint]
    [{ dist := fun _ _ _ => 0, name := "a", latitude := 0,
       longitude := 0, insertBeforeLast := false }] 0
    (fun j h => absurd h (by simp)) (by simp) (by omega) (by simp)

/-- C10. Every stats, marker or segment operation of `GPXService`
invoked before a successful load (no analyzer, no marker manager)
fails with the unloaded-state error `"No GPX data loaded"`.  The
`Except`-based model raises before any mutation, so the caller's
service state is untouched by construction. -/
theorem C10_unloaded_state_errors (sg : List ℚ → ℕ → ℕ → List ℚ)
    (dist : ℚ → ℚ → TrackPoint → ℚ) (s : GPXService)
    (name : String) (lat lon : ℚ) (ibl : Bool) (i j : ℤ)
    (ha : s.analyzer = none) (hm : s.markerManager = none) :
    serviceGetStats sg s = .error noDataMsg ∧
    serviceGetTrackDataframe s = .error noDataMsg ∧
    serviceAddMarker dist s name lat lon ibl = .error noDataMsg ∧
    serviceRemoveMarker s i = .error noDataMsg ∧
    serviceClearMarkers s = .error noDataMsg ∧
    serviceGetMarkers s = .error noDataMsg ∧
    serviceGetSegments sg s = .error noDataMsg ∧
    serviceGetSegment sg s i j = .error noDataMsg ∧
    serviceMoveMarkerUp s i = .error noDataMsg ∧
    serviceMoveMarkerDown s i = .error noDataMsg := by
  refine ⟨?_, ?_, ?_, ?_, ?_, ?_, ?_, ?_, ?_, ?_⟩ <;>
    simp [serviceGetStats, serviceGetTrackDataframe, serviceAddMarker,
      serviceRemoveMarker, serviceClearMarkers, serviceGetMarkers,
      serviceGetSegments, serviceGetSegment, serviceMoveMarkerUp,
      serviceMoveMarkerDown, ha, hm]

/-- C5. In `calculate_stats`, distance resampling feeds the elevation
pipeline exactly when the total track distance exceeds the configured
minimum (100 m); applied to arrays of length ≥ 2 whose last cumulative
distance is `t > 100`, `_resample_by_distance` produces
`⌊t/interval⌋ + 1` evenly spaced distance samples running from 0 to
`t` with elevations linearly interpolated at each; with fewer than 2
samples it returns its input unchanged. -/
theorem C5_distance_resampling (sg : List ℚ → ℕ → ℕ → List ℚ)
    (points : List TrackPoint) (d e : List ℚ) (t : ℚ)
    (hd2 : 2 ≤ d.length) (he2 : 2 ≤ e.length)
    (hlast : d.getLast?.getD 0 = t) (ht : minDistanceForResampling < t) :
    (¬ minDistanceForResampling <
        ((points.map (·.distance_from_start)).getLast?).getD 0 →
      (calculateStats sg points).total_ascent
          = (calculateElevationGainLoss
              (smoothElevationAdvanced sg
                (removeOutliers (points.map (·.elevation))))
              elevationThresholdMeters).1 ∧
      (calculateStats sg points).total_descent
          = (calculateElevationGainLoss
              (smoothElevationAdvanced sg
                (removeOutliers (points.map (·.elevation))))
              elevationThresholdMeters).2) ∧
    (minDistanceForResampling <
        ((points.map (·.distance_from_start)).getLast?).getD 0 →
      (calculateStats sg points).total_ascent
          = (calculateElevationGainLoss
              (smoothElevationAdvanced sg
                (removeOutliers
                  (resampleByDistance (points.map (·.distance_from_start))
                    (points.map (·.elevation)) distanceResamplingMeters).2))
              elevationThresholdMeters).1 ∧
      (calculateStats sg points).total_descent
          = (calculateElevationGainLoss
              (smoothElevationAdvanced sg
                (removeOutliers
                  (resampleByDistance (points.map (·.distance_from_start))
                    (points.map (·.elevation)) distanceResamplingMeters).2))
              elevationThresholdMeters).2) ∧
    (resampleByDistance d e distanceResamplingMeters).1.length
        = (⌊t / distanceResamplingMeters⌋).toNat + 1 ∧
    (resampleByDistance d e distanceResamplingMeters).2.length
        = (⌊t / distanceResamplingMeters⌋).toNat + 1 ∧
    (resampleByDistance d e distanceResamplingMeters).1.getD 0 0 = 0 ∧
    (resampleByDistance d e distanceResamplingMeters).1.getD
        ((resampleByDistance d e distanceResamplingMeters).1.length - 1) 0 = t ∧
    (∀ i, i + 1 < (resampleByDistance d e distanceResamplingMeters).1.length →
      (resampleByDistance d e distanceResamplingMeters).1.getD (i + 1) 0
          - (resampleByDistance d e distanceResamplingMeters).1.getD i 0
        = t / (((resampleByDistance d e distanceResamplingMeters).1.length : ℚ) - 1)) ∧
    (∀ i, i < (resampleByDistance d e distanceResamplingMeters).1.length →
      (resampleByDistance d e distanceResamplingMeters).2.getD i 0
        = interp ((resampleByDistance d e distanceResamplingMeters).1.getD i 0) d e) ∧
    (∀ (da ea : List ℚ) (iv : ℚ), da.length < 2 ∨ ea.length < 2 →
      resampleByDistance da ea iv = (da, ea)) := by
  have ht100 : (100 : ℚ) < t := by simpa [minDistanceForResampling] using ht
  have ht0 : (0 : ℚ) < t := by linarith
  have hfl : 10 ≤ ⌊t / distanceResamplingMeters⌋ := resample_floor_ge t ht
  have h2num : 2 ≤ ⌊t / distanceResamplingMeters⌋ + 1 := by omega
  have hre := resampleByDistance_eq d e t hd2 he2 hlast ht0
  have hlen1 : (resampleByDistance d e distanceResamplingMeters).1.length
      = (⌊t / distanceResamplingMeters⌋).toNat + 1 := by
    rw [hre]
    rw [length_linspace 0 t _ h2num]
    omega
  have hcast : (((⌊t / distanceResamplingMeters⌋).toNat + 1 : ℕ) : ℚ)
      = ((⌊t / distanceResamplingMeters⌋ + 1 : ℤ).toNat : ℚ) := by
    congr 1
    omega
  refine ⟨?_, ?_, hlen1, ?_, ?_, ?_, ?_, ?_, ?_⟩
  · intro h
    have h' : ¬ minDistanceForResampling <
        (Option.map (fun x => x.distance_from_start) points.getLast?).getD 0 := by
      rw [← List.getLast?_map]; exact h
    constructor <;> simp [calculateStats, h']
  · intro h
    have h' : minDistanceForResampling <
        (Option.map (fun x => x.distance_from_start) points.getLast?).getD 0 := by
      rw [← List.getLast?_map]; exact h
    constructor <;> simp [calculateStats, h']
  · rw [hre]
    simp only [List.length_map]
    rw [length_linspace 0 t _ h2num]
    omega
  · rw [hre]
    rw [getD_linspace 0 t _ h2num 0 (by omega)]
    simp
  · rw [hlen1, hre]
    rw [getD_linspace 0 t _ h2num ((⌊t / distanceResamplingMeters⌋).toNat + 1 - 1)
      (by omega)]
    have hne : ((((⌊t / distanceResamplingMeters⌋ + 1 : ℤ).toNat : ℚ)) - 1) ≠ 0 := by
      have : (2 : ℚ) ≤ ((⌊t / distanceResamplingMeters⌋ + 1 : ℤ).toNat : ℚ) := by
        exact_mod_cast (by omega : 2 ≤ (⌊t / distanceResamplingMeters⌋ + 1 : ℤ).toNat)
      linarith
    have h1 : ((⌊t / distanceResamplingMeters⌋.toNat : ℤ))
        = ⌊t / distanceResamplingMeters⌋ := by omega
    have h2 : (((⌊t / distanceResamplingMeters⌋ + 1 : ℤ).toNat : ℤ))
        = ⌊t / distanceResamplingMeters⌋ + 1 := by omega
    have q1 : ((⌊t / distanceResamplingMeters⌋.toNat : ℕ) : ℚ)
        = ((⌊t / distanceResamplingMeters⌋ : ℤ) : ℚ) := by
      exact_mod_cast congrArg (Int.cast : ℤ → ℚ) h1
    have q2 : (((⌊t / distanceResamplingMeters⌋ + 1 : ℤ).toNat : ℕ) : ℚ)
        = ((⌊t / distanceResamplingMeters⌋ : ℤ) : ℚ) + 1 := by
      exact_mod_cast congrArg (Int.cast : ℤ → ℚ) h2
    have hsub : (((⌊t / distanceResamplingMeters⌋).toNat + 1 - 1 : ℕ) : ℚ)
        = ((⌊t / distanceResamplingMeters⌋ + 1 : ℤ).toNat : ℚ) - 1 := by
      simp only [Nat.add_sub_cancel]
      rw [q1, q2]
      ring
    rw [hsub]
    rw [q2]
    field_simp
  · intro i hi
    rw [hlen1] at hi
    rw [hlen1, hre]
    rw [getD_linspace 0 t _ h2num (i + 1) (by omega),
      getD_linspace 0 t _ h2num i (by omega)]
    rw [hcast]
    have hne : (((⌊t / distanceResamplingMeters⌋ + 1 : ℤ).toNat : ℚ) - 1) ≠ 0 := by
      have : (2 : ℚ) ≤ ((⌊t / distanceResamplingMeters⌋ + 1 : ℤ).toNat : ℚ) := by
        exact_mod_cast (by omega : 2 ≤ (⌊t / distanceResamplingMeters⌋ + 1 : ℤ).toNat)
      linarith
    field_simp
    push_cast
    ring
  · intro i hi
    rw [hlen1] at hi
    rw [hre]
    exact getD_map_q (fun x => interp x d e) _ i
      (by rw [length_linspace 0 t _ h2num]; omega)
  · intro da ea iv h
    unfold resampleByDistance
    rw [if_pos h]

/-- C1. Failing-input evaluation for the order-independence of
`get_segment_between_points`.  On the loaded track `pts2` (two points,
0 m/100 m elevation and 0 m/101 m cumulative distance, extracted from
`raw2`), calling with (earlier, later) yields ascent 30 while calling
with (later, earlier) yields ascent 0: the slice and the |distance| are
order-normalized, but the sub-range distance array is re-based against
the original first argument, so in the reversed call it ends at 0 and
resampling collapses the elevations to a single sample.  This refutes
the claim that both orders return identical results and that the
distance array is re-based to start at 0 regardless of argument
order. -/
theorem C1_segment_order_dependence :
    extractTrackPoints (fun _ _ => 101) raw2 = .ok pts2 ∧
    (getSegmentBetweenPoints sgId pts2 ptA ptB).1
      = (getSegmentBetweenPoints sgId pts2 ptB ptA).1 ∧
    (getSegmentBetweenPoints sgId pts2 ptA ptB).2.1
      = (getSegmentBetweenPoints sgId pts2 ptB ptA).2.1 ∧
    (getSegmentBetweenPoints sgId pts2 ptA ptB).2.2.1 = 30 ∧
    (getSegmentBetweenPoints sgId pts2 ptB ptA).2.2.1 = 0 ∧
    getSegmentBetweenPoints sgId pts2 ptA ptB
      ≠ getSegmentBetweenPoints sgId pts2 ptB ptA := by
  have hext : extractTrackPoints (fun _ _ => 101) raw2 = .ok pts2 := by
    norm_num [extractTrackPoints, buildTrackPoints, GPXDoc.flatPoints, raw2,
      pts2, ptA, ptB]
  have hlin : linspace 0 101 11
      = [0, 101/10, 101/5, 303/10, 202/5, 101/2, 303/5, 707/10, 404/5,
         909/10, 101] := by
    norm_num [linspace, List.range_succ, (show Int.toNat 11 = 11 by omega)]
  have hmap : (List.map (fun x => interp x [0, 101] [100, 130])
      [0, 101/10, 101/5, 303/10, 202/5, 101/2, 303/5, 707/10, 404/5,
       909/10, 101] : List ℚ)
      = [100, 103, 106, 109, 112, 115, 118, 121, 124, 127, 130] := by
    norm_num [interp, interpGo]
  have hres : resampleByDistance [0, 101] [100, 130] 10
      = ([0, 101/10, 101/5, 303/10, 202/5, 101/2, 303/5, 707/10, 404/5,
          909/10, 101],
         [100, 103, 106, 109, 112, 115, 118, 121, 124, 127, 130]) := by
    norm_num [resampleByDistance, pyInt, hlin, hmap]
  have hro : removeOutliers [100, 103, 106, 109, 112, 115, 118, 121, 124,
      127, 130]
      = [100, 103, 106, 109, 112, 115, 118, 121, 124, 127, 130] := by
    norm_num [removeOutliers]
  have hsm : smoothElevationAdvanced sgId [100, 103, 106, 109, 112, 115,
      118, 121, 124, 127, 130]
      = [100, 103, 106, 109, 112, 115, 118, 121, 124, 127, 130] := by
    norm_num [smoothElevationAdvanced]
  have hgl : calculateElevationGainLoss [100, 103, 106, 109, 112, 115, 118,
      121, 124, 127, 130] (1/2) = (30, 0) := by
    norm_num [calculateElevationGainLoss, diffs, List.filter]
  have hfwd : getSegmentBetweenPoints sgId pts2 ptA ptB
      = ([ptA, ptB], 101, 30, 0) := by
    norm_num [getSegmentBetweenPoints, pts2, ptA, ptB,
      minDistanceForResampling, distanceResamplingMeters,
      elevationThresholdMeters, hres, hro, hsm, hgl]
  have hres2 : resampleByDistance [-101, 0] [100, 130] 10 = ([0], [130]) := by
    norm_num [resampleByDistance, pyInt, linspace, interp, interpGo]
  have hro2 : removeOutliers [130] = [130] := by norm_num [removeOutliers]
  have hsm2 : smoothElevationAdvanced sgId [130] = [130] := by
    norm_num [smoothElevationAdvanced]
  have hgl2 : calculateElevationGainLoss [130] (1/2) = (0, 0) := by
    norm_num [calculateElevationGainLoss]
  have hrev : getSegmentBetweenPoints sgId pts2 ptB ptA
      = ([ptA, ptB], 101, 0, 0) := by
    norm_num [getSegmentBetweenPoints, pts2, ptA, ptB,
      minDistanceForResampling, distanceResamplingMeters,
      elevationThresholdMeters, hres2, hro2, hsm2, hgl2]
  refine ⟨hext, ?_, ?_, ?_, ?_, ?_⟩
  · rw [hfwd, hrev]
  · rw [hfwd, hrev]
  · rw [hfwd]
  · rw [hrev]
  · rw [hfwd, hrev]
    intro hcontra
    have h30 : (30 : ℚ) = 0 := by
      have := congrArg (fun p => p.2.2.1) hcontra
      simpa using this
    norm_num at h30

/-- Witness for C5: the arrays `[0, 150]` and `[100, 130]` with total
distance 150 m. -/
theorem C5_distance_resampling_witness :
    (2 ≤ dW.length) ∧
    (resampleByDistance dW eW distanceResamplingMeters).1.length
        = (⌊(150 : ℚ) / distanceResamplingMeters⌋).toNat + 1 ∧
    (resampleByDistance dW eW distanceResamplingMeters).1.getD 0 0 = 0 ∧
    (resampleByDistance dW eW distanceResamplingMeters).1.getD
        ((resampleByDistance dW eW distanceResamplingMeters).1.length - 1) 0
      = 150 :=
  ⟨by simp [dW],
    (C5_distance_resampling sgId [] dW eW 150 (by simp [dW]) (by simp [eW])
      rfl (by norm_num [minDistanceForResampling])).2.2.1,
    (C5_distance_resampling sgId [] dW eW 150 (by simp [dW]) (by simp [eW])
      rfl (by norm_num [minDistanceForResampling])).2.2.2.2.1,
    (C5_distance_resampling sgId [] dW eW 150 (by simp [dW]) (by simp [eW])
      rfl (by norm_num [minDistanceForResampling])).2.2.2.2.2.1⟩

/-- Witness for C10 at the freshly initialized service. -/
theorem C10_unloaded_state_errors_witness :
    serviceGetStats sgId GPXService.initial = .error noDataMsg ∧
    serviceGetTrackDataframe GPXService.initial = .error noDataMsg ∧
    serviceAddMarker (fun _ _ _ => 0) GPXService.initial "m" 0 0 false
      = .error noDataMsg ∧
    serviceRemoveMarker GPXService.initial 0 = .error noDataMsg ∧
    serviceClearMarkers GPXService.initial = .error noDataMsg ∧
    serviceGetMarkers GPXService.initial = .error noDataMsg ∧
    serviceGetSegments sgId GPXService.initial = .error noDataMsg ∧
    serviceGetSegment sgId GPXService.initial 0 1 = .error noDataMsg ∧
    serviceMoveMarkerUp GPXService.initial 0 = .error noDataMsg ∧
    serviceMoveMarkerDown GPXService.initial 0 = .error noDataMsg :=
  C10_unloaded_state_errors sgId (fun _ _ _ => 0) GPXService.initial
    "m" 0 0 false 0 1 rfl rfl

end GpxA
